import Mathlib

/-
Shallow embedding of the graph runtime in
src/tvm/src/runtime/graph/graph_runtime.cc.

Machine integers are modelled as Nat/Int; where the C++ performs size_t
arithmetic the computation is reduced modulo 2^64 explicitly, and where it
casts to int64_t the two's-complement reinterpretation is made explicit.
Device buffers are modelled by their index in the storage pool
(`storage_pool_`), which serves as the abstract data pointer: two tensor
views alias exactly when they carry the same pool index.  The contents of
the pool buffers form the mutable store (`Store`), a list of byte lists
indexed by pool index; the backend copy primitives `TVMArrayCopyFromTo` /
`TVMArrayCopyFromBytes` are modelled as whole-view value transfer through
that store.  Fatal CHECK failures are modelled by `Option`/`Except` error
results; LOG(WARNING) side effects are not observable in the model.
-/

set_option autoImplicit false

namespace GraphRT

/-- Modulus of size_t arithmetic. -/
def U64 : Nat := 2 ^ 64

/-- Reinterpretation of an int64_t value as size_t (static_cast<size_t>). -/
def castU64 (z : Int) : Nat := (z % (2 ^ 64 : Int)).toNat

/-- Reinterpretation of a size_t value (< 2^64) as int64_t (static_cast<int64_t>). -/
def int64OfNat (n : Nat) : Int :=
  if n < 2 ^ 63 then (n : Int) else (n : Int) - 2 ^ 64

/-- Two's-complement wraparound of int64_t arithmetic. -/
def wrap64 (z : Int) : Int := (z + 2 ^ 63) % 2 ^ 64 - 2 ^ 63

/-- DLDataType: type code, bits per lane, number of lanes. -/
structure TVMType where
  code : Nat
  bits : Nat
  lanes : Nat
deriving DecidableEq, Repr

/-- The dtype of the allocated pool buffers: kDLFloat (= 2), 32 bits, 1 lane
(the TVMArrayAlloc call in SetupStorage). -/
def float32 : TVMType := ⟨2, 32, 1⟩

def dfltType : TVMType := ⟨0, 0, 0⟩

/-- A DLTensor view: abstract data pointer (pool index), shape, ndim, dtype.
The view never owns memory; `data` identifies the backing pool buffer. -/
structure DataEntry where
  data : Nat
  shape : List Int
  ndim : Nat
  dtype : TVMType
deriving DecidableEq, Repr

def dfltEntry : DataEntry := ⟨0, [], 0, dfltType⟩

/-- The element count loop of SetupStorage: `size_t size = 1; for (sz : shape)
size *= static_cast<size_t>(sz);`. -/
def shapeSizeU (shp : List Int) : Nat :=
  shp.foldl (fun a d => a * castU64 d % U64) 1

/-- The per-entry byte size computed by SetupStorage:
`bytes = (bits / 8) * size` in size_t arithmetic, with `bits = t.bits * t.lanes`. -/
def entryBytesD (t : TVMType) (shp : List Int) : Nat :=
  t.bits * t.lanes / 8 * shapeSizeU shp % U64

/-- One pool-growing step of SetupStorage: lazily resize `pool_entry_bytes`
to `sid + 1` (filling with 0) and take the max with the new byte size. -/
def growPool (pool : List Nat) (sid : Nat) (b : Nat) : List Nat :=
  let p := if pool.length ≤ sid then pool ++ List.replicate (sid + 1 - pool.length) 0 else pool
  p.set sid (max (p.getD sid 0) b)

/-- The first loop of SetupStorage, iterating `i` over `attrs_.shape.size()`
(`k` counts the remaining iterations): checks `storage_id >= 0` and
`bits % 8 == 0`, then grows `pool_entry_bytes`. -/
def poolLoop (sids : List Int) (shapes : List (List Int)) (vts : List TVMType) :
    Nat → Nat → List Nat → Option (List Nat)
  | _, 0, pool => some pool
  | i, k + 1, pool =>
    let sid := sids.getD i 0
    let t := vts.getD i dfltType
    if 0 ≤ sid then
      if t.bits * t.lanes % 8 = 0 then
        poolLoop sids shapes vts (i + 1) k
          (growPool pool sid.toNat (entryBytesD t (shapes.getD i [])))
      else none
    else none

/-- The allocation extent of one pool buffer:
`static_cast<int64_t>(pool_entry_bytes[i] + 3) / 4` (int64_t division). -/
def allocElems (b : Nat) : Int := Int.tdiv (int64OfNat ((b + 3) % U64)) 4

/-- The second loop of SetupStorage: one 1-D float32 buffer per pool entry.
The buffer's abstract data pointer is its pool index. -/
def allocPool (pb : List Nat) : List DataEntry :=
  (List.range pb.length).map fun i => ⟨i, [allocElems (pb.getD i 0)], 1, float32⟩

/-- One step of the third loop of SetupStorage: check
`static_cast<size_t>(storage_id) < storage_pool_.size()`, copy the pool
tensor (`data_entry_[i] = *storage_pool_[storage_id]`) and overwrite
shape, ndim and dtype with the planned values. -/
def mkEntry (pool : List DataEntry) (sid : Int) (shp : List Int) (t : TVMType) :
    Option DataEntry :=
  if castU64 sid < pool.length then
    some { pool.getD (castU64 sid) dfltEntry with shape := shp, ndim := shp.length, dtype := t }
  else none

/-- The third loop of SetupStorage, assigning `data_entry_[i]` for
`i` from a start index, `k` iterations remaining. -/
def assignFrom (pool : List DataEntry) (sids : List Int) (shapes : List (List Int))
    (vts : List TVMType) : Nat → Nat → Option (List DataEntry)
  | _, 0 => some []
  | i, k + 1 =>
    match mkEntry pool (sids.getD i 0) (shapes.getD i []) (vts.getD i dfltType) with
    | none => none
    | some e =>
      match assignFrom pool sids shapes vts (i + 1) k with
      | none => none
      | some es => some (e :: es)

/-- GraphRuntime::SetupStorage.  `numEntries` is `num_node_entries()`
(the resize extent of `data_entry_`), `vts` is the decoded `vtype` vector
(`String2TVMType` applied to `attrs_.dltype`; the decoder lives outside this
translation unit).  Returns the storage pool and the per-entry views. -/
def setupStorage (numEntries : Nat) (sids : List Int) (shapes : List (List Int))
    (vts : List TVMType) : Option (List DataEntry × List DataEntry) :=
  match poolLoop sids shapes vts 0 shapes.length [] with
  | none => none
  | some pb =>
    let pool := allocPool pb
    match assignFrom pool sids shapes vts 0 numEntries with
    | none => none
    | some es => some (pool, es)

/-- Maximum of `entryBytesD` over the entries `j` in `[i, i+k)` whose storage
id maps to `s` (0 when there is none). -/
def maxBytesFrom (sids : List Int) (shapes : List (List Int)) (vts : List TVMType)
    (s : Nat) : Nat → Nat → Nat
  | _, 0 => 0
  | i, k + 1 =>
    let rest := maxBytesFrom sids shapes vts s (i + 1) k
    if (sids.getD i 0).toNat = s then
      max (entryBytesD (vts.getD i dfltType) (shapes.getD i [])) rest
    else rest

/-- Mathematical (overflow-free) product of a shape. -/
def natProd (l : List Int) : Nat := l.foldl (fun a d => a * d.toNat) 1

/-- Mathematical (overflow-free) byte size `(bits·lanes/8) · ∏ shape`. -/
def pureBytes (t : TVMType) (shp : List Int) : Nat :=
  t.bits * t.lanes / 8 * natProd shp

/-- A NodeEntry `{node_id, index, version}`. -/
structure NodeEntry where
  node_id : Nat
  index : Nat
  version : Nat
deriving DecidableEq, Repr

/-- Modelled from the spec: `TVMOpParam` is declared in graph_runtime.h, which
is not under src/; its fields `func_name`, `num_inputs`, `num_outputs`,
`flatten_data` are fixed by the loader (`Node::LoadAttrs`) and `CreateTVMOp`. -/
structure TVMOpParam where
  func_name : String
  num_inputs : Nat
  num_outputs : Nat
  flatten_data : Nat
deriving DecidableEq, Repr

/-- A graph node. -/
structure Node where
  op_type : String
  name : String
  param : TVMOpParam
  inputs : List NodeEntry
  control_deps : List Nat
deriving DecidableEq, Repr

def dfltNode : Node := ⟨"", "", ⟨"", 0, 0, 0⟩, [], []⟩

/-- The loaded GraphRuntime state relevant to name/index resolution and data
movement: `nodes_`, `input_nodes_`, `node_row_ptr_`, `outputs_`, `data_entry_`. -/
structure Runtime where
  nodes : List Node
  input_nodes : List Nat
  node_row_ptr : List Nat
  outputs : List NodeEntry
  data_entry : List DataEntry
deriving DecidableEq, Repr

/-- `entry_id(nid, index) = node_row_ptr_[nid] + index` (uint32 arithmetic;
overflow is immaterial here and not modelled). -/
def entry_id (rt : Runtime) (nid : Nat) (idx : Nat) : Nat :=
  rt.node_row_ptr.getD nid 0 + idx

/-- `entry_id(e) = entry_id(e.node_id, e.index)`. -/
def entry_idE (rt : Runtime) (e : NodeEntry) : Nat := entry_id rt e.node_id e.index

/-- The mutable contents of the storage pool buffers, indexed by pool index. -/
abbrev Store := List (List Nat)

/-- GraphRuntime::GetInputIndex: linear scan of `input_nodes_` comparing
`nodes_[nid].name`; `none` models the warn-and-return -1 path. -/
def getInputIndex (rt : Runtime) (name : String) : Option Nat :=
  rt.input_nodes.findIdx? fun nid => (rt.nodes.getD nid dfltNode).name == name

/-- GraphRuntime::GetInputNames: for each input index, computes
`eid = entry_id(input_nodes_[index], 0)` and streams `nodes_[eid].name`
(note: the node table is indexed by the ENTRY id).  The C++ joins the
names with ';'; the model returns them as a list. -/
def getInputNames (rt : Runtime) : List String :=
  rt.input_nodes.map fun nid => (rt.nodes.getD (entry_id rt nid 0) dfltNode).name

/-- GraphRuntime::GetOutputNames: for each output, computes
`eid = entry_id(outputs_[index])` and streams `nodes_[eid].name`
(again indexing the node table by the entry id). -/
def getOutputNames (rt : Runtime) : List String :=
  rt.outputs.map fun e => (rt.nodes.getD (entry_idE rt e) dfltNode).name

/-- GraphRuntime::SetInput: `CHECK_LT(index, input_nodes_.size())` (fatal on
failure, modelled as `none`), then copy the source view into
`data_entry_[entry_id(input_nodes_[index], 0)]`. -/
def setInput (rt : Runtime) (st : Store) (index : Nat) (v : List Nat) : Option Store :=
  if index < rt.input_nodes.length then
    some (st.set (rt.data_entry.getD (entry_id rt (rt.input_nodes.getD index 0) 0) dfltEntry).data v)
  else none

/-- GraphRuntime::GetInput: `CHECK_LT(index, input_nodes_.size())`, then copy
`data_entry_[entry_id(input_nodes_[index], 0)]` out. -/
def getInput (rt : Runtime) (st : Store) (index : Nat) : Option (List Nat) :=
  if index < rt.input_nodes.length then
    some (st.getD (rt.data_entry.getD (entry_id rt (rt.input_nodes.getD index 0) 0) dfltEntry).data [])
  else none

/-- The "set_input" packed function with a string argument:
`in_idx = GetInputIndex(name); if (in_idx >= 0) SetInput(in_idx, v);` —
an unknown name warns (inside GetInputIndex) and falls through without
touching any state. -/
def setInputByName (rt : Runtime) (st : Store) (name : String) (v : List Nat) :
    Option Store :=
  match getInputIndex rt name with
  | some i => setInput rt st i v
  | none => some st

/-- The "get_input" packed function with a string argument:
`in_idx = GetInputIndex(name); CHECK_GE(in_idx, 0); GetInput(in_idx, dst);` —
an unknown name makes the CHECK_GE fail, which is fatal (`none`). -/
def getInputByName (rt : Runtime) (st : Store) (name : String) : Option (List Nat) :=
  match getInputIndex rt name with
  | some i => getInput rt st i
  | none => none

/-- Modelled from the spec: the array magic constant lives in the runtime
headers outside src/; the claims depend only on the equality test against it. -/
def kTVMNDArrayMagic : Nat := 0xDD5E40F096B4A13F

/-- Modelled from the spec: the list magic constant lives in the runtime
headers outside src/. -/
def kTVMNDArrayListMagic : Nat := 0xF7E58D4F05049CB7

/-- One serialized tensor of the parameter blob, with the fields in the order
LoadDLTensor reads them.  The shape list is the `ndim` int64 values read from
the stream, and `data` is the `data_byte_size` bytes segment. -/
structure DLTensorBlob where
  header : Nat
  reserved : Nat
  device_type : Nat
  device_id : Nat
  dtype : TVMType
  shape : List Int
  data_byte_size : Nat
  data : List Nat
deriving DecidableEq, Repr

/-- The size computation of LoadDLTensor against the planned (destination)
view: `size = (bits + 7) / 8; for (i < ndim) size *= dst->shape[i];` in
size_t arithmetic (the view's ndim always equals its shape length here). -/
def tensorByteSize (dst : DataEntry) : Nat :=
  dst.shape.foldl (fun a d => a * castU64 d % U64)
    ((dst.dtype.bits * dst.dtype.lanes + 7) / 8)

/-- GraphRuntime::LoadDLTensor: magic, ndim, dtype, per-dimension shape and
declared byte-size checks (each CHECK failure is fatal), then
`TVMArrayCopyFromBytes(dst, bytes, data_byte_size)` writes the payload into
the destination view's buffer. -/
def loadDLTensor (blob : DLTensorBlob) (dst : DataEntry) (st : Store) :
    Except String Store :=
  if blob.header ≠ kTVMNDArrayMagic then .error "Invalid DLTensor file format"
  else if blob.shape.length ≠ dst.ndim then .error "param dimension mismatch"
  else if ¬ (blob.dtype.bits = dst.dtype.bits ∧ blob.dtype.code = dst.dtype.code ∧
      blob.dtype.lanes = dst.dtype.lanes) then .error "param type mismatch"
  else if ¬ (∀ i, i < blob.shape.length → blob.shape.getD i 0 = dst.shape.getD i 0) then
    .error "param shape mismatch"
  else if blob.data_byte_size ≠ tensorByteSize dst then .error "Invalid DLTensor file format"
  else if blob.data.length ≠ blob.data_byte_size then .error "Invalid DLTensor file format"
  else .ok (st.set dst.data blob.data)

/-- The conjunction of conditions under which LoadDLTensor reaches the copy. -/
def tensorChecks (blob : DLTensorBlob) (dst : DataEntry) : Prop :=
  blob.header = kTVMNDArrayMagic ∧ blob.shape.length = dst.ndim ∧
  (blob.dtype.bits = dst.dtype.bits ∧ blob.dtype.code = dst.dtype.code ∧
    blob.dtype.lanes = dst.dtype.lanes) ∧
  (∀ i, i < blob.shape.length → blob.shape.getD i 0 = dst.shape.getD i 0) ∧
  blob.data_byte_size = tensorByteSize dst ∧ blob.data.length = blob.data_byte_size

instance (blob : DLTensorBlob) (dst : DataEntry) : Decidable (tensorChecks blob dst) := by
  unfold tensorChecks
  infer_instance

/-- One iteration of the LoadParams loop for name `n`: look the name up
(`CHECK_GE(in_idx, 0)` fatal on miss), check the entry id bound, then parse
and copy one tensor from the stream (`none` models an exhausted stream). -/
def stepParam (rt : Runtime) (st : Store) (n : String) (t? : Option DLTensorBlob) :
    Except String Store :=
  match getInputIndex rt n with
  | none => .error "Found param for non-existent input"
  | some idx =>
    let eid := entry_id rt (rt.input_nodes.getD idx 0) 0
    if eid < rt.data_entry.length then
      match t? with
      | none => .error "Invalid DLTensor file format"
      | some t => loadDLTensor t (rt.data_entry.getD eid dfltEntry) st
    else .error "CHECK_LT(eid, data_entry_.size()) failed"

/-- The LoadParams loop: tensors are validated and copied one at a time in
blob order, mutating the store in place; the first failure aborts the loop
with the store as already mutated. -/
def loadParamsLoop (rt : Runtime) : List String → List DLTensorBlob → Store →
    Store × Option String
  | [], _, st => (st, none)
  | n :: ns, ts, st =>
    match stepParam rt st n ts.head? with
    | .error e => (st, some e)
    | .ok st' => loadParamsLoop rt ns ts.tail st'

/-- The all-successful variant of the LoadParams loop: `some` exactly when
every step validates, returning the store with all tensors written. -/
def loadParamsOk (rt : Runtime) : List String → List DLTensorBlob → Store →
    Option Store
  | [], _, st => some st
  | n :: ns, ts, st =>
    match stepParam rt st n ts.head? with
    | .error _ => none
    | .ok st' => loadParamsOk rt ns ts.tail st'

/-- The parameter blob wrapper read by GraphRuntime::LoadParams before the
per-tensor loop: list magic, reserved word, name list and declared count. -/
structure ParamBlob where
  header : Nat
  reserved : Nat
  names : List String
  sz : Nat
  tensors : List DLTensorBlob
deriving Repr

/-- GraphRuntime::LoadParams: header magic and count checks, then the loop. -/
def loadParams (rt : Runtime) (blob : ParamBlob) (st : Store) : Store × Option String :=
  if blob.header ≠ kTVMNDArrayListMagic then (st, some "Invalid parameters file format")
  else if blob.sz ≠ blob.names.length then (st, some "Invalid parameters file format")
  else loadParamsLoop rt blob.names blob.tensors st

/-- `kArrayHandle`, the TVM argument type code for DLTensor handles. -/
def kArrayHandle : Nat := 7

/-- `std::accumulate(t->shape, t->shape + t->ndim, 1, multiplies<int64_t>)`:
the int64 product of a view's shape. -/
def prod64 (l : List Int) : Int := l.foldl (fun a d => wrap64 (a * d)) 1

/-- The pre-packed argument state built by CreateTVMOp (the OpArgs struct):
the captured views, one value cell per argument (modelled as the index of the
view it points at), one type code per argument, and the flattened-shape
scratch array. -/
structure OpArgs where
  args : List DataEntry
  arg_values : List Nat
  arg_tcodes : List Nat
  shape_data : List Int
deriving DecidableEq, Repr

/-- The argument-packing part of GraphRuntime::CreateTVMOp: value cells point
at the captured views, every type code is kArrayHandle, and when
`flatten_data` is set the scratch slot `i` receives the int64 product of the
i-th view's shape while the view is rewritten to ndim 1 with its shape
pointing at that slot (modelled as the one-element shape `[shape_data[i]]`).
The subsequent `__nop` / module-lookup closure installation consumes this
state unchanged. -/
def createTVMOp (param : TVMOpParam) (args : List DataEntry) : OpArgs :=
  if param.flatten_data ≠ 0 then
    { args := args.map fun t => { t with ndim := 1, shape := [prod64 t.shape] }
      arg_values := List.range args.length
      arg_tcodes := List.replicate args.length kArrayHandle
      shape_data := args.map fun t => prod64 t.shape }
  else
    { args := args
      arg_values := List.range args.length
      arg_tcodes := List.replicate args.length kArrayHandle
      shape_data := [] }

/-- A graph attribute value as it appears after its type tag: the tagged
two-element array `[tag, payload]` of the JSON format.  The four known
payload forms carry their decoded payload; any other tag is `otherTag`
(its payload is never read because the loader fails first). -/
inductive AttrVal where
  | listStr (v : List String)
  | listInt (v : List Int)
  | listShape (v : List (List Int))
  | sizeT (v : Nat)
  | otherTag (tag : String)
deriving DecidableEq, Repr

/-- The three parallel attribute arrays of GraphAttr. -/
structure GraphAttrS where
  storage_id : List Int
  dltype : List String
  shape : List (List Int)
deriving DecidableEq, Repr

/-- The object-iteration loop of GraphRuntime::GraphAttr::Load over
(key, value) pairs, accumulating the required-field bitmask:
`dltype` must be tagged list_str (bit 1), `storage_id` list_int (bit 2),
`shape` list_shape (bit 4); any other key is skipped when tagged list_int
or size_t and is fatal otherwise. -/
def loadAttrsLoop : List (String × AttrVal) → Nat → GraphAttrS →
    Except String (Nat × GraphAttrS)
  | [], bm, a => .ok (bm, a)
  | (k, v) :: rest, bm, a =>
    if k = "dltype" then
      match v with
      | .listStr s => loadAttrsLoop rest (bm ||| 1) { a with dltype := s }
      | _ => .error "dltype is not tagged list_str"
    else if k = "storage_id" then
      match v with
      | .listInt s => loadAttrsLoop rest (bm ||| 2) { a with storage_id := s }
      | _ => .error "storage_id is not tagged list_int"
    else if k = "shape" then
      match v with
      | .listShape s => loadAttrsLoop rest (bm ||| 4) { a with shape := s }
      | _ => .error "shape is not tagged list_shape"
    else
      match v with
      | .listInt _ => loadAttrsLoop rest bm a
      | .sizeT _ => loadAttrsLoop rest bm a
      | _ => .error "cannot skip graph attr"

/-- GraphRuntime::GraphAttr::Load: run the loop from an empty accumulator and
check `CHECK_EQ(bitmask, 1|2|4)`. -/
def loadGraphAttr (kvs : List (String × AttrVal)) : Except String GraphAttrS :=
  match loadAttrsLoop kvs 0 ⟨[], [], []⟩ with
  | .error e => .error e
  | .ok (bm, a) => if bm = 7 then .ok a else .error "invalid format"

/-- A loaded graph with four nodes: input "a", a two-output tvm_op "f",
input "b", and a one-output tvm_op "g"; `node_row_ptr = [0,1,3,4,5]`,
`input_nodes = [0,2]`, single output: second output of "f". -/
def exRt1 : Runtime :=
  { nodes := [⟨"null", "a", ⟨"", 0, 0, 0⟩, [], []⟩,
              ⟨"tvm_op", "f", ⟨"add", 1, 2, 0⟩, [⟨0, 0, 0⟩], []⟩,
              ⟨"null", "b", ⟨"", 0, 0, 0⟩, [], []⟩,
              ⟨"tvm_op", "g", ⟨"mul", 2, 1, 0⟩, [⟨1, 0, 0⟩, ⟨2, 0, 0⟩], []⟩]
    input_nodes := [0, 2]
    node_row_ptr := [0, 1, 3, 4, 5]
    outputs := [⟨1, 1, 0⟩]
    data_entry := [] }

/-- A loaded graph with two input nodes "x" and "y", one entry each, each
entry backed by its own pool buffer of four bytes. -/
def exRt8 : Runtime :=
  { nodes := [⟨"null", "x", ⟨"", 0, 0, 0⟩, [], []⟩,
              ⟨"null", "y", ⟨"", 0, 0, 0⟩, [], []⟩]
    input_nodes := [0, 1]
    node_row_ptr := [0, 1, 2]
    outputs := []
    data_entry := [⟨0, [1], 1, float32⟩, ⟨1, [1], 1, float32⟩] }

/-- A well-formed serialized parameter tensor for a planned view of shape [1],
dtype float32: four payload bytes. -/
def exTensor : DLTensorBlob :=
  { header := kTVMNDArrayMagic
    reserved := 0
    device_type := 1
    device_id := 0
    dtype := float32
    shape := [1]
    data_byte_size := 4
    data := [1, 2, 3, 4] }

/-- A graph attrs object carrying the three required attributes plus one
skippable extra tagged size_t. -/
def exKvs : List (String × AttrVal) :=
  [("dltype", .listStr ["float32"]),
   ("storage_id", .listInt [0]),
   ("shape", .listShape [[1]]),
   ("extra", .sizeT 5)]

/-- Claim C1 (refuted by the code, demonstration): GetInputNames and
GetOutputNames index the node table `nodes_` by the ENTRY id
`entry_id(nid, 0)` / `entry_id(e)` instead of the node id.  On `exRt1` the
second input (node 2, named "b") has entry id 3, so get_input_names returns
"g" — the name of the unrelated node 3 — which GetInputIndex does not accept
(it warns and set_input is a no-op); likewise the single output (output 1 of
node "f") has entry id 2, so get_output_names returns "b", the name of an
input placeholder, not of the output's producing node. -/
theorem input_output_names_use_entry_ids :
    getInputNames exRt1 = ["a", "g"] ∧
    (exRt1.nodes.getD 2 dfltNode).name = "b" ∧
    getInputIndex exRt1 "g" = none ∧
    setInputByName exRt1 [[0], [0], [0], [0], [0]] "g" [7] =
      some [[0], [0], [0], [0], [0]] ∧
    getOutputNames exRt1 = ["b"] ∧
    (exRt1.nodes.getD 1 dfltNode).name = "f" := by decide

/-- Claim C2 (counterexample): with the unknown name "zzz", get_input is not a
warn-and-return no-op: GetInputIndex returns -1 (modelled `none`) and the
following CHECK_GE(in_idx, 0) makes the call fatal (`none`), refuting the
claim that get_input with an unknown name warns and returns without work. -/
theorem get_input_unknown_name_fatal_cex :
    getInputIndex exRt1 "zzz" = none ∧
    getInputByName exRt1 [[0], [0], [0], [0], [0]] "zzz" = none := by decide

/-- Claim C2 (amended): for every name that is not the name of any input node,
set_input(name, v) warns and returns without modifying any state, while
get_input(name, dst) warns in the lookup and then aborts fatally at
CHECK_GE(in_idx, 0) without copying. -/
theorem unknown_name_set_noop_get_fatal (rt : Runtime) (st : Store) (name : String)
    (v : List Nat) (h : getInputIndex rt name = none) :
    setInputByName rt st name v = some st ∧ getInputByName rt st name = none := by
  unfold setInputByName getInputByName
  rw [h]
  exact ⟨rfl, rfl⟩

theorem unknown_name_set_noop_get_fatal_witness :
    setInputByName exRt1 [[3]] "qq" [1] = some [[3]] ∧
    getInputByName exRt1 [[3]] "qq" = none :=
  unknown_name_set_noop_get_fatal exRt1 [[3]] "qq" [1] (by decide)

/-- Claim C3 (counterexample): a storage plan with a single entry of shape [0]
(maximum byte size 0 for storage id 0) allocates the pool buffer for storage
id 0 with extent (0+3)/4 = 0 float32 elements — an empty buffer, not a
1-element one as claimed. -/
theorem zero_byte_pool_zero_elems_cex :
    setupStorage 1 [0] [[0]] [float32] =
      some ([⟨0, [0], 1, float32⟩], [⟨0, [0], 1, float32⟩]) ∧
    ([(0 : Int)] : List Int) ≠ [1] := by decide

/-- Claim C7: at op binding time, when the flatten_data flag is set,
CreateTVMOp allocates one scratch slot per argument, fills slot i with the
int64 product of the i-th argument view's shape, and rewrites that view to
ndim 1 with its shape aimed at the scratch slot; when flatten_data is unset
the views keep their planned rank and shape and no scratch is allocated. -/
theorem flatten_rewrites_args (param : TVMOpParam) (args : List DataEntry) :
    (param.flatten_data ≠ 0 →
      (createTVMOp param args).shape_data.length = args.length ∧
      ∀ i, i < args.length →
        (createTVMOp param args).shape_data.getD i 0 =
          prod64 (args.getD i dfltEntry).shape ∧
        ((createTVMOp param args).args.getD i dfltEntry).ndim = 1 ∧
        ((createTVMOp param args).args.getD i dfltEntry).shape =
          [(createTVMOp param args).shape_data.getD i 0]) ∧
    (param.flatten_data = 0 →
      (createTVMOp param args).args = args ∧
      (createTVMOp param args).shape_data = []) := by
  constructor
  · intro h
    simp only [createTVMOp, if_pos h, List.length_map]
    refine ⟨by simp, fun i hi => ?_⟩
    have hm1 : i < (args.map fun t => prod64 t.shape).length := by
      simpa using hi
    have hm2 : i < (args.map fun t : DataEntry =>
        { t with ndim := 1, shape := [prod64 t.shape] }).length := by
      simpa using hi
    rw [List.getD_eq_getElem _ _ hm1, List.getD_eq_getElem _ _ hm2,
      List.getD_eq_getElem _ _ hi]
    simp [List.getElem_map]
  · intro h
    simp [createTVMOp, h]

theorem flatten_rewrites_args_witness :
    ((createTVMOp ⟨"add", 1, 1, 1⟩ [⟨0, [2, 3], 2, float32⟩]).shape_data.length = 1 ∧
      ∀ i, i < 1 →
        (createTVMOp ⟨"add", 1, 1, 1⟩ [⟨0, [2, 3], 2, float32⟩]).shape_data.getD i 0 =
          prod64 (([⟨0, [2, 3], 2, float32⟩] : List DataEntry).getD i dfltEntry).shape ∧
        ((createTVMOp ⟨"add", 1, 1, 1⟩ [⟨0, [2, 3], 2, float32⟩]).args.getD i dfltEntry).ndim = 1 ∧
        ((createTVMOp ⟨"add", 1, 1, 1⟩ [⟨0, [2, 3], 2, float32⟩]).args.getD i dfltEntry).shape =
          [(createTVMOp ⟨"add", 1, 1, 1⟩ [⟨0, [2, 3], 2, float32⟩]).shape_data.getD i 0]) :=
  (flatten_rewrites_args ⟨"add", 1, 1, 1⟩ [⟨0, [2, 3], 2, float32⟩]).1 (by decide)

/-- Claim C8: for every valid input index, set_input followed by get_input at
the same index round-trips the value: both resolve the same entry id
`entry_id(input_nodes_[index], 0)` and hence the same pool buffer, so the
copy in followed by the copy out yields the value written. -/
theorem set_get_input_roundtrip (rt : Runtime) (st st' : Store) (i : Nat) (v : List Nat)
    (hp : (rt.data_entry.getD (entry_id rt (rt.input_nodes.getD i 0) 0) dfltEntry).data
        < st.length)
    (hset : setInput rt st i v = some st') :
    getInput rt st' i = some v := by
  unfold setInput at hset
  unfold getInput
  by_cases hi : i < rt.input_nodes.length
  · rw [if_pos hi] at hset
    rw [if_pos hi]
    cases hset
    congr 1
    rw [List.getD_eq_getElem?_getD, List.getElem?_set, if_pos rfl, if_pos hp]
    rfl
  · rw [if_neg hi] at hset
    exact absurd hset (by simp)

theorem set_get_input_roundtrip_witness :
    setInput exRt8 [[0, 0, 0, 0], [0, 0, 0, 0]] 0 [1, 2, 3, 4] =
      some [[1, 2, 3, 4], [0, 0, 0, 0]] ∧
    getInput exRt8 [[1, 2, 3, 4], [0, 0, 0, 0]] 0 = some [1, 2, 3, 4] :=
  ⟨by decide, set_get_input_roundtrip exRt8 [[0, 0, 0, 0], [0, 0, 0, 0]]
    [[1, 2, 3, 4], [0, 0, 0, 0]] 0 [1, 2, 3, 4] (by decide) (by decide)⟩

/-- Claim C6: loading one parameter tensor into a target view succeeds exactly
when the blob's header magic, ndim, dtype code/bits/lanes and every shape
dimension equal the planned values and the declared data_byte_size equals
ceil(bits·lanes/8)·∏shape (the `tensorByteSize` of the planned view, computed
in size_t arithmetic) with a full payload; on agreement the payload bytes are
copied into the target entry's buffer, and any mismatch is fatal. -/
theorem load_tensor_checks_then_copies (blob : DLTensorBlob) (dst : DataEntry) (st : Store) :
    (loadDLTensor blob dst st = .ok (st.set dst.data blob.data) ↔ tensorChecks blob dst) ∧
    (¬ tensorChecks blob dst → ∃ msg, loadDLTensor blob dst st = .error msg) := by
  unfold loadDLTensor tensorChecks
  split_ifs with h1 h2 h3 h4 h5 h6 <;> simp_all

theorem load_tensor_checks_then_copies_witness :
    loadDLTensor exTensor ⟨0, [1], 1, float32⟩ [[9, 9, 9, 9]] =
      .ok ([[9, 9, 9, 9]].set 0 exTensor.data) :=
  (load_tensor_checks_then_copies exTensor ⟨0, [1], 1, float32⟩ [[9, 9, 9, 9]]).1.mpr
    (by decide)

/-- A stepParam call with an exhausted tensor stream never succeeds. -/
theorem stepParam_none_not_ok (rt : Runtime) (st : Store) (n : String) (st1 : Store) :
    stepParam rt st n none ≠ .ok st1 := by
  unfold stepParam
  cases hgi : getInputIndex rt n <;> simp
  split <;> simp

/-- Claim C10: load_params is not atomic — the loop validates and copies
tensors one at a time in blob order, so whenever the loop aborts with an
error there is an index i such that the resulting store is exactly the store
after successfully writing the first i tensors (loadParamsOk on the first i
names and tensors) and the i-th step is the one that failed.  The executor's
input state is left half-written on error, not unchanged. -/
theorem load_params_not_atomic (rt : Runtime) :
    ∀ (ns : List String) (ts : List DLTensorBlob) (st st' : Store) (e : String),
      loadParamsLoop rt ns ts st = (st', some e) →
      ∃ i, i < ns.length ∧
        loadParamsOk rt (ns.take i) (ts.take i) st = some st' ∧
        stepParam rt st' (ns.getD i "") ((ts.drop i).head?) = .error e := by
  intro ns
  induction ns with
  | nil =>
    intro ts st st' e h
    simp [loadParamsLoop] at h
  | cons n ns ih =>
    intro ts st st' e h
    simp only [loadParamsLoop] at h
    cases hs : stepParam rt st n ts.head? with
    | error e0 =>
      rw [hs] at h
      have h1 : st = st' := congrArg Prod.fst h
      have h2 : e0 = e := by simpa using congrArg Prod.snd h
      subst h1
      subst h2
      refine ⟨0, by simp, by simp [loadParamsOk], by simpa using hs⟩
    | ok st1 =>
      rw [hs] at h
      obtain ⟨i, hi, hok, hfail⟩ := ih ts.tail st1 st' e h
      obtain ⟨t, ts', rfl⟩ : ∃ t ts', ts = t :: ts' := by
        cases ts with
        | nil => exact absurd hs (stepParam_none_not_ok rt st n st1)
        | cons t ts' => exact ⟨t, ts', rfl⟩
      have hs' : stepParam rt st n (some t) = .ok st1 := hs
      refine ⟨i + 1, by simpa using Nat.succ_lt_succ hi, ?_, ?_⟩
      · simpa [loadParamsOk, hs'] using hok
      · simpa using hfail

theorem load_params_not_atomic_witness :
    loadParamsLoop exRt8 ["x", "zzz"] [exTensor] [[9, 9, 9, 9], [8, 8, 8, 8]] =
      ([[1, 2, 3, 4], [8, 8, 8, 8]], some "Found param for non-existent input") ∧
    (∃ i, i < (["x", "zzz"] : List String).length ∧
      loadParamsOk exRt8 (["x", "zzz"].take i) (([exTensor] : List DLTensorBlob).take i)
          [[9, 9, 9, 9], [8, 8, 8, 8]] = some [[1, 2, 3, 4], [8, 8, 8, 8]] ∧
      stepParam exRt8 [[1, 2, 3, 4], [8, 8, 8, 8]] ((["x", "zzz"] : List String).getD i "")
          ((([exTensor] : List DLTensorBlob).drop i).head?) =
        .error "Found param for non-existent input") ∧
    ([[1, 2, 3, 4], [8, 8, 8, 8]] : Store) ≠ [[9, 9, 9, 9], [8, 8, 8, 8]] :=
  ⟨by decide,
    load_params_not_atomic exRt8 ["x", "zzz"] [exTensor] [[9, 9, 9, 9], [8, 8, 8, 8]]
      [[1, 2, 3, 4], [8, 8, 8, 8]] "Found param for non-existent input" (by decide),
    by decide⟩

/-- Setting a bitmask bit that is clear in the mask `c` cannot set other bits. -/
theorem testBit_or_elim {bm c j : Nat} (hc : c.testBit j = false)
    (h : (bm ||| c).testBit j = true) : bm.testBit j = true := by
  rcases Bool.or_eq_true_iff.mp (by simpa only [Nat.testBit_or] using h) with h' | h'
  · exact h'
  · rw [hc] at h'
    exact absurd h' (by simp)

/-- When the attrs loop succeeds, each required-field bit of the final bitmask
was either already set or was set by a matching (key, tagged value) entry. -/
theorem loadAttrsLoop_mask (kvs : List (String × AttrVal)) : ∀ (bm : Nat) (a : GraphAttrS)
    (bm' : Nat) (a' : GraphAttrS), loadAttrsLoop kvs bm a = .ok (bm', a') →
    (bm'.testBit 0 = true → bm.testBit 0 = true ∨ ∃ v, ("dltype", AttrVal.listStr v) ∈ kvs) ∧
    (bm'.testBit 1 = true → bm.testBit 1 = true ∨ ∃ v, ("storage_id", AttrVal.listInt v) ∈ kvs) ∧
    (bm'.testBit 2 = true → bm.testBit 2 = true ∨ ∃ v, ("shape", AttrVal.listShape v) ∈ kvs) := by
  induction kvs with
  | nil =>
    intro bm a bm' a' h
    simp only [loadAttrsLoop, Except.ok.injEq, Prod.mk.injEq] at h
    obtain ⟨rfl, -⟩ := h
    exact ⟨fun hb => Or.inl hb, fun hb => Or.inl hb, fun hb => Or.inl hb⟩
  | cons kv rest ih =>
    intro bm a bm' a' h
    obtain ⟨k, v⟩ := kv
    simp only [loadAttrsLoop] at h
    by_cases hk1 : k = "dltype"
    · rw [if_pos hk1] at h
      subst hk1
      cases v with
      | listStr s =>
        obtain ⟨m0, m1, m2⟩ := ih _ _ _ _ h
        refine ⟨fun _ => Or.inr ⟨s, List.mem_cons_self _ _⟩, fun hb => ?_, fun hb => ?_⟩
        · rcases m1 hb with hb' | ⟨w, hw⟩
          · left; exact testBit_or_elim (by decide) hb'
          · exact Or.inr ⟨w, List.mem_cons_of_mem _ hw⟩
        · rcases m2 hb with hb' | ⟨w, hw⟩
          · left; exact testBit_or_elim (by decide) hb'
          · exact Or.inr ⟨w, List.mem_cons_of_mem _ hw⟩
      | listInt s => exact absurd h (by simp)
      | listShape s => exact absurd h (by simp)
      | sizeT s => exact absurd h (by simp)
      | otherTag t => exact absurd h (by simp)
    · rw [if_neg hk1] at h
      by_cases hk2 : k = "storage_id"
      · rw [if_pos hk2] at h
        subst hk2
        cases v with
        | listInt s =>
          obtain ⟨m0, m1, m2⟩ := ih _ _ _ _ h
          refine ⟨fun hb => ?_, fun _ => Or.inr ⟨s, List.mem_cons_self _ _⟩, fun hb => ?_⟩
          · rcases m0 hb with hb' | ⟨w, hw⟩
            · left; exact testBit_or_elim (by decide) hb'
            · exact Or.inr ⟨w, List.mem_cons_of_mem _ hw⟩
          · rcases m2 hb with hb' | ⟨w, hw⟩
            · left; exact testBit_or_elim (by decide) hb'
            · exact Or.inr ⟨w, List.mem_cons_of_mem _ hw⟩
        | listStr s => exact absurd h (by simp)
        | listShape s => exact absurd h (by simp)
        | sizeT s => exact absurd h (by simp)
        | otherTag t => exact absurd h (by simp)
      · rw [if_neg hk2] at h
        by_cases hk3 : k = "shape"
        · rw [if_pos hk3] at h
          subst hk3
          cases v with
          | listShape s =>
            obtain ⟨m0, m1, m2⟩ := ih _ _ _ _ h
            refine ⟨fun hb => ?_, fun hb => ?_, fun _ => Or.inr ⟨s, List.mem_cons_self _ _⟩⟩
            · rcases m0 hb with hb' | ⟨w, hw⟩
              · left; exact testBit_or_elim (by decide) hb'
              · exact Or.inr ⟨w, List.mem_cons_of_mem _ hw⟩
            · rcases m1 hb with hb' | ⟨w, hw⟩
              · left; exact testBit_or_elim (by decide) hb'
              · exact Or.inr ⟨w, List.mem_cons_of_mem _ hw⟩
          | listStr s => exact absurd h (by simp)
          | listInt s => exact absurd h (by simp)
          | sizeT s => exact absurd h (by simp)
          | otherTag t => exact absurd h (by simp)
        · rw [if_neg hk3] at h
          cases v with
          | listInt s =>
            obtain ⟨m0, m1, m2⟩ := ih _ _ _ _ h
            refine ⟨fun hb => ?_, fun hb => ?_, fun hb => ?_⟩
            · rcases m0 hb with hb' | ⟨w, hw⟩
              · exact Or.inl hb'
              · exact Or.inr ⟨w, List.mem_cons_of_mem _ hw⟩
            · rcases m1 hb with hb' | ⟨w, hw⟩
              · exact Or.inl hb'
              · exact Or.inr ⟨w, List.mem_cons_of_mem _ hw⟩
            · rcases m2 hb with hb' | ⟨w, hw⟩
              · exact Or.inl hb'
              · exact Or.inr ⟨w, List.mem_cons_of_mem _ hw⟩
          | sizeT s =>
            obtain ⟨m0, m1, m2⟩ := ih _ _ _ _ h
            refine ⟨fun hb => ?_, fun hb => ?_, fun hb => ?_⟩
            · rcases m0 hb with hb' | ⟨w, hw⟩
              · exact Or.inl hb'
              · exact Or.inr ⟨w, List.mem_cons_of_mem _ hw⟩
            · rcases m1 hb with hb' | ⟨w, hw⟩
              · exact Or.inl hb'
              · exact Or.inr ⟨w, List.mem_cons_of_mem _ hw⟩
            · rcases m2 hb with hb' | ⟨w, hw⟩
              · exact Or.inl hb'
              · exact Or.inr ⟨w, List.mem_cons_of_mem _ hw⟩
          | listStr s => exact absurd h (by simp)
          | listShape s => exact absurd h (by simp)
          | otherTag t => exact absurd h (by simp)

/-- Claim C9: a successful GraphAttr load requires all three of dltype (tagged
list_str), storage_id (tagged list_int) and shape (tagged list_shape) to be
present; and for any other key, the entry is skipped (the loop state is
untouched) when it is tagged list_int or size_t, while any other tag makes
the load fail. -/
theorem graph_attr_required_and_skip :
    (∀ kvs a, loadGraphAttr kvs = .ok a →
      (∃ v, ("dltype", AttrVal.listStr v) ∈ kvs) ∧
      (∃ v, ("storage_id", AttrVal.listInt v) ∈ kvs) ∧
      (∃ v, ("shape", AttrVal.listShape v) ∈ kvs)) ∧
    (∀ (k : String) (v : AttrVal) (rest : List (String × AttrVal)) (bm : Nat) (a : GraphAttrS),
      k ≠ "dltype" → k ≠ "storage_id" → k ≠ "shape" →
      ((∃ x, v = AttrVal.listInt x) ∨ (∃ x, v = AttrVal.sizeT x) →
        loadAttrsLoop ((k, v) :: rest) bm a = loadAttrsLoop rest bm a) ∧
      (¬ ((∃ x, v = AttrVal.listInt x) ∨ (∃ x, v = AttrVal.sizeT x)) →
        loadAttrsLoop ((k, v) :: rest) bm a = .error "cannot skip graph attr")) := by
  constructor
  · intro kvs a h
    unfold loadGraphAttr at h
    cases hl : loadAttrsLoop kvs 0 ⟨[], [], []⟩ with
    | error e => rw [hl] at h; exact absurd h (by simp)
    | ok p =>
      rw [hl] at h
      obtain ⟨bm, a0⟩ := p
      by_cases hbm : bm = 7
      · subst hbm
        obtain ⟨m0, m1, m2⟩ := loadAttrsLoop_mask kvs 0 ⟨[], [], []⟩ 7 a0 hl
        refine ⟨?_, ?_, ?_⟩
        · rcases m0 (by decide) with hb | hv
          · exact absurd hb (by decide)
          · exact hv
        · rcases m1 (by decide) with hb | hv
          · exact absurd hb (by decide)
          · exact hv
        · rcases m2 (by decide) with hb | hv
          · exact absurd hb (by decide)
          · exact hv
      · simp [hbm] at h
  · intro k v rest bm a hk1 hk2 hk3
    constructor
    · rintro (⟨x, rfl⟩ | ⟨x, rfl⟩) <;>
        simp [loadAttrsLoop, hk1, hk2, hk3]
    · intro hno
      cases v with
      | listInt x => exact absurd (Or.inl ⟨x, rfl⟩) hno
      | sizeT x => exact absurd (Or.inr ⟨x, rfl⟩) hno
      | listStr x => simp [loadAttrsLoop, hk1, hk2, hk3]
      | listShape x => simp [loadAttrsLoop, hk1, hk2, hk3]
      | otherTag t => simp [loadAttrsLoop, hk1, hk2, hk3]

theorem graph_attr_required_and_skip_witness :
    ((∃ v, ("dltype", AttrVal.listStr v) ∈ exKvs) ∧
      (∃ v, ("storage_id", AttrVal.listInt v) ∈ exKvs) ∧
      (∃ v, ("shape", AttrVal.listShape v) ∈ exKvs)) ∧
    loadAttrsLoop [("extra", AttrVal.sizeT 5)] 7 ⟨[0], ["float32"], [[1]]⟩ =
      loadAttrsLoop [] 7 ⟨[0], ["float32"], [[1]]⟩ :=
  ⟨graph_attr_required_and_skip.1 exKvs ⟨[0], ["float32"], [[1]]⟩ rfl,
    (graph_attr_required_and_skip.2 "extra" (AttrVal.sizeT 5) [] 7 ⟨[0], ["float32"], [[1]]⟩
      (by decide) (by decide) (by decide)).1 (Or.inr ⟨5, rfl⟩)⟩

/-- Padding a pool with zero bytes does not change any getD lookup. -/
theorem pad_getD (pool : List Nat) (n s : Nat) :
    (pool ++ List.replicate n 0).getD s 0 = pool.getD s 0 := by
  by_cases h : s < pool.length
  · exact List.getD_append _ _ _ _ h
  · rw [List.getD_append_right _ _ _ _ (Nat.le_of_not_lt h),
      List.getD_eq_default _ _ (Nat.le_of_not_lt h)]
    rcases Nat.lt_or_ge (s - pool.length) n with h2 | h2
    · rw [List.getD_eq_getElem _ _ (by simpa using h2)]
      simp
    · rw [List.getD_eq_default _ _ (by simpa using h2)]

/-- The pool length after one growing step. -/
theorem growPool_length (pool : List Nat) (sid b : Nat) :
    (growPool pool sid b).length = max pool.length (sid + 1) := by
  unfold growPool
  by_cases h : pool.length ≤ sid <;> simp [h] <;> omega

/-- The pool contents after one growing step: entry `sid` becomes the max of
its old value and the new byte size; every other entry is unchanged. -/
theorem growPool_getD (pool : List Nat) (sid b s : Nat) :
    (growPool pool sid b).getD s 0 =
      if s = sid then max (pool.getD s 0) b else pool.getD s 0 := by
  unfold growPool
  have hlen : sid <
      (if pool.length ≤ sid then pool ++ List.replicate (sid + 1 - pool.length) 0
        else pool).length := by
    by_cases h : pool.length ≤ sid <;> simp [h] <;> omega
  have hpad : ∀ s', (if pool.length ≤ sid then
      pool ++ List.replicate (sid + 1 - pool.length) 0 else pool).getD s' 0 =
      pool.getD s' 0 := by
    intro s'
    by_cases h : pool.length ≤ sid
    · simp only [if_pos h]
      exact pad_getD pool _ s'
    · simp only [if_neg h]
  rw [List.getD_eq_getElem?_getD, List.getElem?_set]
  by_cases hss : s = sid
  · subst hss
    rw [if_pos rfl, if_pos hlen, if_pos rfl, Option.getD_some, hpad]
  · rw [if_neg (fun hh => hss hh.symm), if_neg hss, ← List.getD_eq_getElem?_getD, hpad]

/-- The first SetupStorage loop computes, for every pool slot `s`, the max of
the initial value and the byte sizes of all processed entries mapping to `s`. -/
theorem poolLoop_getD (sids : List Int) (shapes : List (List Int)) (vts : List TVMType) :
    ∀ (k i : Nat) (pool pb : List Nat),
      poolLoop sids shapes vts i k pool = some pb →
      ∀ s, pb.getD s 0 = max (pool.getD s 0) (maxBytesFrom sids shapes vts s i k) := by
  intro k
  induction k with
  | zero =>
    intro i pool pb h s
    simp only [poolLoop, Option.some.injEq] at h
    subst h
    simp [maxBytesFrom]
  | succ k ih =>
    intro i pool pb h s
    simp only [poolLoop] at h
    split_ifs at h with h1 h2
    have := ih (i + 1) _ pb h s
    rw [this, growPool_getD]
    simp only [maxBytesFrom]
    by_cases hs : (sids.getD i 0).toNat = s
    · rw [if_pos hs.symm, if_pos hs]
      omega
    · rw [if_neg (fun hh => hs hh.symm), if_neg hs]

/-- The first SetupStorage loop only grows the pool, and afterwards every
processed storage id indexes inside it. -/
theorem poolLoop_sid_lt (sids : List Int) (shapes : List (List Int)) (vts : List TVMType) :
    ∀ (k i : Nat) (pool pb : List Nat),
      poolLoop sids shapes vts i k pool = some pb →
      pool.length ≤ pb.length ∧
      ∀ j, i ≤ j → j < i + k → (sids.getD j 0).toNat < pb.length := by
  intro k
  induction k with
  | zero =>
    intro i pool pb h
    simp only [poolLoop, Option.some.injEq] at h
    subst h
    exact ⟨Nat.le_refl _, fun j hj1 hj2 => absurd hj2 (by omega)⟩
  | succ k ih =>
    intro i pool pb h
    simp only [poolLoop] at h
    split_ifs at h with h1 h2
    obtain ⟨hle, hlt⟩ := ih (i + 1) _ pb h
    rw [growPool_length] at hle
    refine ⟨by omega, fun j hj1 hj2 => ?_⟩
    rcases Nat.eq_or_lt_of_le hj1 with rfl | hgt
    · omega
    · exact hlt j hgt (by omega)

/-- The third SetupStorage loop produces one view per entry, namely
the successful mkEntry at that entry's plan data. -/
theorem assignFrom_spec (pool : List DataEntry) (sids : List Int)
    (shapes : List (List Int)) (vts : List TVMType) :
    ∀ (k i : Nat) (es : List DataEntry),
      assignFrom pool sids shapes vts i k = some es →
      es.length = k ∧ ∀ j, j < k →
        some (es.getD j dfltEntry) =
          mkEntry pool (sids.getD (i + j) 0) (shapes.getD (i + j) [])
            (vts.getD (i + j) dfltType) := by
  intro k
  induction k with
  | zero =>
    intro i es h
    simp only [assignFrom, Option.some.injEq] at h
    subst h
    exact ⟨rfl, fun j hj => absurd hj (by omega)⟩
  | succ k ih =>
    intro i es h
    simp only [assignFrom] at h
    cases hm : mkEntry pool (sids.getD i 0) (shapes.getD i []) (vts.getD i dfltType) with
    | none => rw [hm] at h; simp at h
    | some e =>
      rw [hm] at h
      cases ha : assignFrom pool sids shapes vts (i + 1) k with
      | none => rw [ha] at h; simp at h
      | some es' =>
        rw [ha] at h
        simp only [Option.some.injEq] at h
        subst h
        obtain ⟨hlen, hspec⟩ := ih (i + 1) es' ha
        refine ⟨by simp [hlen], fun j hj => ?_⟩
        cases j with
        | zero => simpa using hm.symm
        | succ j' =>
          have hj' := hspec j' (by omega)
          have harith : i + 1 + j' = i + (j' + 1) := by omega
          rw [harith] at hj'
          simpa using hj'

theorem allocPool_length (pb : List Nat) : (allocPool pb).length = pb.length := by
  simp [allocPool]

/-- The allocated pool buffer at slot `s`: pointer `s`, one dimension of
`allocElems` extent, dtype float32. -/
theorem allocPool_getD (pb : List Nat) (s : Nat) (hs : s < pb.length) :
    (allocPool pb).getD s dfltEntry = ⟨s, [allocElems (pb.getD s 0)], 1, float32⟩ := by
  unfold allocPool
  rw [List.getD_eq_getElem _ _ (by simpa using hs)]
  rw [List.getElem_map, List.getElem_range]

/-- Every entry in range with storage id `s` is bounded by maxBytesFrom. -/
theorem maxBytesFrom_ub (sids : List Int) (shapes : List (List Int)) (vts : List TVMType)
    (s : Nat) : ∀ (k i j : Nat), i ≤ j → j < i + k → (sids.getD j 0).toNat = s →
      entryBytesD (vts.getD j dfltType) (shapes.getD j []) ≤
        maxBytesFrom sids shapes vts s i k := by
  intro k
  induction k with
  | zero => intro i j hj1 hj2 _; omega
  | succ k ih =>
    intro i j hj1 hj2 hjs
    simp only [maxBytesFrom]
    rcases Nat.eq_or_lt_of_le hj1 with rfl | hgt
    · rw [if_pos hjs]
      exact Nat.le_max_left _ _
    · have := ih (i + 1) j hgt (by omega) hjs
      by_cases hc : (sids.getD i 0).toNat = s
      · rw [if_pos hc]
        exact Nat.le_trans this (Nat.le_max_right _ _)
      · rw [if_neg hc]
        exact this

/-- maxBytesFrom is zero or attained by some entry in range with storage id `s`. -/
theorem maxBytesFrom_attained (sids : List Int) (shapes : List (List Int))
    (vts : List TVMType) (s : Nat) : ∀ (k i : Nat),
      maxBytesFrom sids shapes vts s i k = 0 ∨
      ∃ j, i ≤ j ∧ j < i + k ∧ (sids.getD j 0).toNat = s ∧
        entryBytesD (vts.getD j dfltType) (shapes.getD j []) =
          maxBytesFrom sids shapes vts s i k := by
  intro k
  induction k with
  | zero => intro i; left; rfl
  | succ k ih =>
    intro i
    simp only [maxBytesFrom]
    by_cases hc : (sids.getD i 0).toNat = s
    · rw [if_pos hc]
      rcases ih (i + 1) with hz | ⟨j, hj1, hj2, hjs, hje⟩
      · rw [hz]
        right
        exact ⟨i, Nat.le_refl _, by omega, hc, by simp⟩
      · rcases Nat.le_total (maxBytesFrom sids shapes vts s (i + 1) k)
          (entryBytesD (vts.getD i dfltType) (shapes.getD i [])) with hle | hle
        · right
          exact ⟨i, Nat.le_refl _, by omega, hc, (Nat.max_eq_left hle).symm⟩
        · right
          exact ⟨j, by omega, by omega, hjs, by rw [hje]; exact (Nat.max_eq_right hle).symm⟩
    · rw [if_neg hc]
      rcases ih (i + 1) with hz | ⟨j, hj1, hj2, hjs, hje⟩
      · exact Or.inl hz
      · exact Or.inr ⟨j, by omega, by omega, hjs, hje⟩

/-- Inversion of a successful SetupStorage run into its three loops. -/
theorem setupStorage_inv (numEntries : Nat) (sids : List Int) (shapes : List (List Int))
    (vts : List TVMType) (pool es : List DataEntry)
    (hres : setupStorage numEntries sids shapes vts = some (pool, es)) :
    ∃ pb, poolLoop sids shapes vts 0 shapes.length [] = some pb ∧
      pool = allocPool pb ∧
      assignFrom (allocPool pb) sids shapes vts 0 numEntries = some es := by
  cases hpl : poolLoop sids shapes vts 0 shapes.length [] with
  | none => rw [setupStorage, hpl] at hres; exact absurd hres (by simp)
  | some pb =>
    rw [setupStorage, hpl] at hres
    simp only [] at hres
    cases ha : assignFrom (allocPool pb) sids shapes vts 0 numEntries with
    | none =>
      rw [ha] at hres
      exact absurd hres (by simp)
    | some es0 =>
      rw [ha] at hres
      simp only [Option.some.injEq, Prod.mk.injEq] at hres
      exact ⟨pb, rfl, hres.1.symm, hres.2 ▸ ha⟩

/-- Claim C5: after SetupStorage, any two entries with the same storage id
share the underlying data pointer — that of the shared pool buffer — while
each keeps its own planned shape, ndim and dtype. -/
theorem aliased_entries_share_pointer (numEntries : Nat) (sids : List Int)
    (shapes : List (List Int)) (vts : List TVMType) (pool es : List DataEntry)
    (hres : setupStorage numEntries sids shapes vts = some (pool, es))
    (e1 e2 : Nat) (h1 : e1 < numEntries) (h2 : e2 < numEntries)
    (hsid : sids.getD e1 0 = sids.getD e2 0) :
    (es.getD e1 dfltEntry).data = (es.getD e2 dfltEntry).data ∧
    (es.getD e1 dfltEntry).data = (pool.getD (castU64 (sids.getD e1 0)) dfltEntry).data ∧
    (es.getD e1 dfltEntry).shape = shapes.getD e1 [] ∧
    (es.getD e1 dfltEntry).ndim = (shapes.getD e1 []).length ∧
    (es.getD e1 dfltEntry).dtype = vts.getD e1 dfltType := by
  obtain ⟨pb, hpl, hpool, ha⟩ :=
    setupStorage_inv numEntries sids shapes vts pool es hres
  subst hpool
  obtain ⟨hlen, hspec⟩ := assignFrom_spec (allocPool pb) sids shapes vts numEntries 0 es ha
  have g1 := hspec e1 h1
  have g2 := hspec e2 h2
  rw [Nat.zero_add] at g1 g2
  unfold mkEntry at g1 g2
  by_cases hc1 : castU64 (sids.getD e1 0) < (allocPool pb).length
  · rw [if_pos hc1] at g1
    by_cases hc2 : castU64 (sids.getD e2 0) < (allocPool pb).length
    · rw [if_pos hc2] at g2
      simp only [Option.some.injEq] at g1 g2
      have hb1 := allocPool_getD pb (castU64 (sids.getD e1 0))
        (by rw [← allocPool_length pb]; exact hc1)
      have hb2 := allocPool_getD pb (castU64 (sids.getD e2 0))
        (by rw [← allocPool_length pb]; exact hc2)
      rw [g1, g2, hb1, hb2, hsid]
      exact ⟨rfl, rfl, rfl, rfl, rfl⟩
    · rw [if_neg hc2] at g2
      exact absurd g2 (by simp)
  · rw [if_neg hc1] at g1
    exact absurd g1 (by simp)

theorem aliased_entries_share_pointer_witness :
    setupStorage 2 [0, 0] [[2], [4]] [float32, float32] =
      some ([⟨0, [4], 1, float32⟩], [⟨0, [2], 1, float32⟩, ⟨0, [4], 1, float32⟩]) ∧
    (let es : List DataEntry := [⟨0, [2], 1, float32⟩, ⟨0, [4], 1, float32⟩]
     let pool : List DataEntry := [⟨0, [4], 1, float32⟩]
     (es.getD 0 dfltEntry).data = (es.getD 1 dfltEntry).data ∧
     (es.getD 0 dfltEntry).data =
       (pool.getD (castU64 (([0, 0] : List Int).getD 0 0)) dfltEntry).data ∧
     (es.getD 0 dfltEntry).shape = ([[2], [4]] : List (List Int)).getD 0 [] ∧
     (es.getD 0 dfltEntry).ndim = ((([[2], [4]] : List (List Int))).getD 0 []).length ∧
     (es.getD 0 dfltEntry).dtype = ([float32, float32] : List TVMType).getD 0 dfltType) :=
  ⟨by decide,
    aliased_entries_share_pointer 2 [0, 0] [[2], [4]] [float32, float32]
      [⟨0, [4], 1, float32⟩] [⟨0, [2], 1, float32⟩, ⟨0, [4], 1, float32⟩]
      (by decide) 0 1 (by decide) (by decide) (by decide)⟩

/-- The allocated extent collapses to plain Nat ceiling division when the byte
size stays below 2^63. -/
theorem allocElems_small (b : Nat) (hb : b + 3 < 2 ^ 63) :
    allocElems b = Int.ofNat ((b + 3) / 4) := by
  unfold allocElems
  rw [Nat.mod_eq_of_lt (lt_trans hb (by norm_num [U64]))]
  rw [int64OfNat, if_pos hb]
  rfl

/-- Claim C4: for every storage id `s` in use, SetupStorage allocates exactly
one 1-D float32 pool buffer for `s` whose element count is the ceiling
division by 4 of B = max over all entries with that storage id of
(bits·lanes/8)·∏shape; consequently every such entry's byte size fits in the
4·count bytes of its pool buffer.  The overflow-freedom hypothesis equates
the size_t computation with the mathematical byte size. -/
theorem pool_size_is_ceil_max_bytes (numEntries : Nat) (sids : List Int)
    (shapes : List (List Int)) (vts : List TVMType) (pool es : List DataEntry)
    (hres : setupStorage numEntries sids shapes vts = some (pool, es))
    (s i0 : Nat) (hi0 : i0 < shapes.length) (hs0 : (sids.getD i0 0).toNat = s)
    (hnoov : ∀ j, j < shapes.length →
      entryBytesD (vts.getD j dfltType) (shapes.getD j []) =
        pureBytes (vts.getD j dfltType) (shapes.getD j []))
    (hsmall : maxBytesFrom sids shapes vts s 0 shapes.length + 3 < 2 ^ 63) :
    s < pool.length ∧
    (pool.getD s dfltEntry).ndim = 1 ∧
    (pool.getD s dfltEntry).dtype = float32 ∧
    (pool.getD s dfltEntry).shape =
      [Int.ofNat ((maxBytesFrom sids shapes vts s 0 shapes.length + 3) / 4)] ∧
    (maxBytesFrom sids shapes vts s 0 shapes.length + 3) / 4 =
      maxBytesFrom sids shapes vts s 0 shapes.length / 4 +
        (if maxBytesFrom sids shapes vts s 0 shapes.length % 4 = 0 then 0 else 1) ∧
    (∀ j, j < shapes.length → (sids.getD j 0).toNat = s →
      pureBytes (vts.getD j dfltType) (shapes.getD j []) ≤
        maxBytesFrom sids shapes vts s 0 shapes.length) ∧
    (∃ j, j < shapes.length ∧ (sids.getD j 0).toNat = s ∧
      pureBytes (vts.getD j dfltType) (shapes.getD j []) =
        maxBytesFrom sids shapes vts s 0 shapes.length) ∧
    (∀ j, j < shapes.length → (sids.getD j 0).toNat = s →
      pureBytes (vts.getD j dfltType) (shapes.getD j []) ≤
        4 * ((maxBytesFrom sids shapes vts s 0 shapes.length + 3) / 4)) := by
  obtain ⟨pb, hpl, hpool, ha⟩ :=
    setupStorage_inv numEntries sids shapes vts pool es hres
  subst hpool
  have hslt : s < pb.length := by
    obtain ⟨-, hlt⟩ := poolLoop_sid_lt sids shapes vts shapes.length 0 [] pb hpl
    have := hlt i0 (Nat.zero_le _) (by omega)
    rw [hs0] at this
    exact this
  have hpb : pb.getD s 0 = maxBytesFrom sids shapes vts s 0 shapes.length := by
    have := poolLoop_getD sids shapes vts shapes.length 0 [] pb hpl s
    simpa using this
  have hub : ∀ j, j < shapes.length → (sids.getD j 0).toNat = s →
      pureBytes (vts.getD j dfltType) (shapes.getD j []) ≤
        maxBytesFrom sids shapes vts s 0 shapes.length := by
    intro j hj hjs
    rw [← hnoov j hj]
    exact maxBytesFrom_ub sids shapes vts s shapes.length 0 j (Nat.zero_le _)
      (by omega) hjs
  refine ⟨by rw [allocPool_length]; exact hslt, ?_, ?_, ?_, ?_, hub, ?_, ?_⟩
  · rw [allocPool_getD pb s hslt]
  · rw [allocPool_getD pb s hslt]
  · rw [allocPool_getD pb s hslt, hpb, allocElems_small _ hsmall]
  · by_cases h4 : maxBytesFrom sids shapes vts s 0 shapes.length % 4 = 0 <;>
      simp [h4] <;> omega
  · rcases maxBytesFrom_attained sids shapes vts s shapes.length 0 with hz | hat
    · refine ⟨i0, hi0, hs0, ?_⟩
      have h1 := hub i0 hi0 hs0
      omega
    · obtain ⟨j, hj1, hj2, hjs, hje⟩ := hat
      refine ⟨j, by omega, hjs, ?_⟩
      rw [← hnoov j (by omega)]
      exact hje
  · intro j hj hjs
    have := hub j hj hjs
    omega

theorem pool_size_is_ceil_max_bytes_witness :
    (let pool : List DataEntry := [⟨0, [4], 1, float32⟩]
     0 < pool.length ∧
     (pool.getD 0 dfltEntry).ndim = 1 ∧
     (pool.getD 0 dfltEntry).dtype = float32 ∧
     (pool.getD 0 dfltEntry).shape =
       [Int.ofNat ((maxBytesFrom [0, 0] [[2], [4]] [float32, float32] 0 0 2 + 3) / 4)] ∧
     (maxBytesFrom [0, 0] [[2], [4]] [float32, float32] 0 0 2 + 3) / 4 =
       maxBytesFrom [0, 0] [[2], [4]] [float32, float32] 0 0 2 / 4 +
         (if maxBytesFrom [0, 0] [[2], [4]] [float32, float32] 0 0 2 % 4 = 0 then 0 else 1) ∧
     (∀ j, j < 2 → ((([0, 0] : List Int)).getD j 0).toNat = 0 →
       pureBytes (([float32, float32] : List TVMType).getD j dfltType)
           ((([[2], [4]] : List (List Int))).getD j []) ≤
         maxBytesFrom [0, 0] [[2], [4]] [float32, float32] 0 0 2) ∧
     (∃ j, j < 2 ∧ ((([0, 0] : List Int)).getD j 0).toNat = 0 ∧
       pureBytes (([float32, float32] : List TVMType).getD j dfltType)
           ((([[2], [4]] : List (List Int))).getD j []) =
         maxBytesFrom [0, 0] [[2], [4]] [float32, float32] 0 0 2) ∧
     (∀ j, j < 2 → ((([0, 0] : List Int)).getD j 0).toNat = 0 →
       pureBytes (([float32, float32] : List TVMType).getD j dfltType)
           ((([[2], [4]] : List (List Int))).getD j []) ≤
         4 * ((maxBytesFrom [0, 0] [[2], [4]] [float32, float32] 0 0 2 + 3) / 4))) :=
  pool_size_is_ceil_max_bytes 2 [0, 0] [[2], [4]] [float32, float32]
    [⟨0, [4], 1, float32⟩] [⟨0, [2], 1, float32⟩, ⟨0, [4], 1, float32⟩]
    (by decide) 0 0 (by decide) (by decide)
    (by decide) (by decide)

/-- Claim C3 (amended): a storage id whose maximum entry byte size is 0 gets a
pool buffer of (0+3)/4 = 0 float32 elements — an empty 1-D float32 buffer,
not a 1-element one. -/
theorem zero_byte_pool_allocates_empty (numEntries : Nat) (sids : List Int)
    (shapes : List (List Int)) (vts : List TVMType) (pool es : List DataEntry)
    (hres : setupStorage numEntries sids shapes vts = some (pool, es))
    (s : Nat) (hs : s < pool.length)
    (hmax : maxBytesFrom sids shapes vts s 0 shapes.length = 0) :
    (pool.getD s dfltEntry).shape = [(0 : Int)] ∧
    (pool.getD s dfltEntry).ndim = 1 ∧
    (pool.getD s dfltEntry).dtype = float32 := by
  obtain ⟨pb, hpl, hpool, ha⟩ :=
    setupStorage_inv numEntries sids shapes vts pool es hres
  subst hpool
  have hs' : s < pb.length := by rw [← allocPool_length pb]; exact hs
  have hpb : pb.getD s 0 = 0 := by
    have := poolLoop_getD sids shapes vts shapes.length 0 [] pb hpl s
    simpa [hmax] using this
  rw [allocPool_getD pb s hs', hpb]
  refine ⟨?_, rfl, rfl⟩
  show [allocElems 0] = [(0 : Int)]
  decide

theorem zero_byte_pool_allocates_empty_witness :
    (let pool : List DataEntry := [⟨0, [0], 1, float32⟩]
     (pool.getD 0 dfltEntry).shape = [(0 : Int)] ∧
     (pool.getD 0 dfltEntry).ndim = 1 ∧
     (pool.getD 0 dfltEntry).dtype = float32) :=
  zero_byte_pool_allocates_empty 1 [0] [[0]] [float32]
    [⟨0, [0], 1, float32⟩] [⟨0, [0], 1, float32⟩] (by decide) 0 (by decide) (by decide)

end GraphRT
